import Mathlib

/-!
Shallow embedding of the Game-of-Life grid engine from `src/main.rs` of
`rusty_game_of_life_with_bevy`, together with theorems checking the
specification's claims about it.

The Rust `Grid` stores `size`, a flat `Vec<bool>` of current cells and a
flat `Vec<bool>` of previous cells, both logically indexed `[y*size + x]`.
We model `Vec<bool>` as `List Bool`.  Rust indexing `v[i]` panics when
`i >= v.len()`; the fallible accessors `get?`, `set?`, `toggle?` model that
panic as `Option.none`, while the total `get` (used inside `neighbors` and
`step`, where the code guarantees the index is in range whenever
`cells.length = size*size`) reads with default `false`.
-/

/-- Rust struct `Grid { size, cells, prev_cells }` from src/main.rs. -/
structure Grid where
  size : Nat
  cells : List Bool
  prev_cells : List Bool
deriving Repr, DecidableEq

namespace Grid

/-- Rust `Grid::new`: both buffers are all-false of length `size*size`. -/
def new (size : Nat) : Grid :=
  let total_cells := size * size
  { size := size
    cells := List.replicate total_cells false
    prev_cells := List.replicate total_cells false }

/-- Rust `Grid::get`, total variant: reads `cells[y*size+x]`, with default
`false` where Rust would panic (see `get?` for the panic behaviour). -/
def get (g : Grid) (x y : Nat) : Bool :=
  g.cells.getD (y * g.size + x) false

/-- Rust `Grid::get` with the bounds panic modelled as `none`. -/
def get? (g : Grid) (x y : Nat) : Option Bool :=
  g.cells[y * g.size + x]?

/-- Rust `Grid::set` with the bounds panic modelled as `none`. -/
def set? (g : Grid) (x y : Nat) (value : Bool) : Option Grid :=
  if y * g.size + x < g.cells.length then
    some { g with cells := g.cells.set (y * g.size + x) value }
  else none

/-- Rust `Grid::toggle` with the bounds panic modelled as `none`:
`cells[index] = !cells[index]` at `index = y*size + x`. -/
def toggle? (g : Grid) (x y : Nat) : Option Grid :=
  let index := y * g.size + x
  if index < g.cells.length then
    some { g with cells := g.cells.set index (!(g.cells.getD index false)) }
  else none

/-- Rust `Grid::neighbors`: loop `dx, dy` over `-1..=1`, skip `(0,0)`,
count positions that pass the bounds test and hold a live cell. -/
def neighbors (g : Grid) (x y : Nat) : Nat :=
  ([-1, 0, 1] : List Int).foldl (fun count dx =>
    ([-1, 0, 1] : List Int).foldl (fun count dy =>
      if dx = 0 ∧ dy = 0 then count
      else
        let nx : Int := (x : Int) + dx
        let ny : Int := (y : Int) + dy
        if 0 ≤ nx ∧ 0 ≤ ny ∧ nx < (g.size : Int) ∧ ny < (g.size : Int) ∧
            g.get nx.toNat ny.toNat = true then
          count + 1
        else count) count) 0

/-- The match arm `(true, 2) | (_, 3) => true, _ => false` of `Grid::step`. -/
def lifeRule (alive : Bool) (n : Nat) : Bool :=
  match alive, n with
  | true, 2 => true
  | _, 3 => true
  | _, _ => false

/-- Rust `Grid::step`: clone `cells` into `new_cells`, overwrite every
`new_cells[y*size+x]` from the unmodified snapshot (`self.get`,
`self.neighbors` read `self.cells`), then shift `prev_cells := cells`
and `cells := new_cells`. -/
def step (g : Grid) : Grid :=
  let new_cells :=
    (List.range g.size).foldl (fun acc x =>
      (List.range g.size).foldl (fun acc y =>
        acc.set (y * g.size + x) (lifeRule (g.get x y) (g.neighbors x y))) acc)
      g.cells
  { g with prev_cells := g.cells, cells := new_cells }

/-- The four colors `Grid::get_color` can return. -/
inductive Color where
  | GREEN  -- newly alive
  | RED    -- recently dead
  | WHITE  -- alive
  | BLACK  -- dead
deriving Repr, DecidableEq

/-- Rust `Grid::get_color`: a match on `(prev_cells[idx], cells[idx])`. -/
def get_color (g : Grid) (x y : Nat) : Color :=
  let current := g.cells.getD (y * g.size + x) false
  let previous := g.prev_cells.getD (y * g.size + x) false
  match previous, current with
  | false, true => .GREEN
  | true, false => .RED
  | true, true => .WHITE
  | false, false => .BLACK

end Grid

/-- The four visual classes of the specification's table. -/
inductive CellClass where
  | BORN
  | DIED
  | ALIVE
  | DEAD
deriving Repr, DecidableEq

/-- The specification's classification table for `(previous, current)`. -/
def classifySpec : Bool → Bool → CellClass
  | false, true => .BORN
  | true, false => .DIED
  | true, true => .ALIVE
  | false, false => .DEAD

/-- The color the source assigns to each class (code comments in
`get_color`: GREEN "Newly alive", RED "Recently dead", WHITE "Alive",
BLACK "Dead"). -/
def colorOfClass : CellClass → Grid.Color
  | .BORN => .GREEN
  | .DIED => .RED
  | .ALIVE => .WHITE
  | .DEAD => .BLACK

/-- The 8 Moore-neighborhood offsets (the spec's `dx, dy ∈ {-1,0,1}`
excluding `(0,0)`). -/
def mooreOffsets : List (Int × Int) :=
  [(-1, -1), (-1, 0), (-1, 1), (0, -1), (0, 1), (1, -1), (1, 0), (1, 1)]

/-- The 9 offsets of the nested `dx, dy ∈ {-1,0,1}` loops of `neighbors`,
in loop order. -/
def nineOffsets : List (Int × Int) :=
  ([-1, 0, 1] : List Int).flatMap fun dx =>
    ([-1, 0, 1] : List Int).map fun dy => (dx, dy)

/-- The `(x, y)` loop pairs of `step`, in loop order. -/
def pairList (size : Nat) : List (Nat × Nat) :=
  (List.range size).flatMap fun x => (List.range size).map fun y => (x, y)

/-- The 25 click offsets `dx, dy ∈ [-CLICK_RADIUS, CLICK_RADIUS]` with
`CLICK_RADIUS = 2`, in the loop order of `handle_clicks`. -/
def clickOffsets : List (Int × Int) :=
  ([-2, -1, 0, 1, 2] : List Int).flatMap fun dx =>
    ([-2, -1, 0, 1, 2] : List Int).map fun dy => (dx, dy)

/-- The click branch of `handle_clicks` in src/main.rs: if the center
`(grid_x, grid_y)` is inside the grid, toggle every offset cell of the
5×5 square that passes the bounds test, silently skipping the rest;
an out-of-bounds center leaves the grid untouched.  A `toggle?` failure
(a Rust panic) surfaces as `none`. -/
def handle_click (g : Grid) (grid_x grid_y : Int) : Option Grid :=
  if 0 ≤ grid_x ∧ 0 ≤ grid_y ∧ grid_x < (g.size : Int) ∧ grid_y < (g.size : Int) then
    clickOffsets.foldlM (fun gr d =>
      let nx := grid_x + d.1
      let ny := grid_y + d.2
      if 0 ≤ nx ∧ 0 ≤ ny ∧ nx < (gr.size : Int) ∧ ny < (gr.size : Int) then
        gr.toggle? nx.toNat ny.toNat
      else
        pure gr) g
  else
    pure g

/-- A 5×5 grid whose only live cells are the row `(1,2),(2,2),(3,2)`
(flat indices `y*5+x` = 11, 12, 13). -/
def blinkerRow : Grid :=
  { size := 5
    cells := (List.range 25).map fun i => decide (i = 11 ∨ i = 12 ∨ i = 13)
    prev_cells := List.replicate 25 false }

/-- The cell array whose only live cells are the column `(2,1),(2,2),(2,3)`
(flat indices `y*5+x` = 7, 12, 17) on a 5×5 grid. -/
def blinkerCol : List Bool :=
  (List.range 25).map fun i => decide (i = 7 ∨ i = 12 ∨ i = 17)

/-- A 3×3 grid whose only live cell is `(0,0)`. -/
def lonelyCorner : Grid :=
  { size := 3
    cells := true :: List.replicate 8 false
    prev_cells := List.replicate 9 false }

/-- Two 2×2 grids with equal cells but different `prev_cells`. -/
def gSamePrevA : Grid :=
  { size := 2, cells := [true, false, false, true], prev_cells := List.replicate 4 false }

/-- See `gSamePrevA`. -/
def gSamePrevB : Grid :=
  { size := 2, cells := [true, false, false, true], prev_cells := List.replicate 4 true }

/-- C5: on a 5×5 grid whose only live cells are the row `(1,2),(2,2),(3,2)`,
one `step()` yields exactly the live cells `(2,1),(2,2),(2,3)` (all other
cells dead), and a second `step()` restores exactly the original row. -/
theorem blinker_period_two :
    blinkerRow.step.cells = blinkerCol ∧ blinkerRow.step.step.cells = blinkerRow.cells := by
  decide

/-- C9 counterexample: `Grid::new(0)` does not fail: it returns a perfectly
defined grid with empty cell buffers (the claim says construction with
`size == 0` raises an error / is rejected). -/
theorem new_zero_succeeds :
    Grid.new 0 = { size := 0, cells := [], prev_cells := [] } := rfl

/-- C9 amended: `new(size)` never fails; for every `size` (including 0) it
produces a grid whose `cells` and `prev_cells` are all-false of length
`size*size`. -/
theorem new_spec (size : Nat) :
    Grid.new size =
      { size := size
        cells := List.replicate (size * size) false
        prev_cells := List.replicate (size * size) false } := rfl

/-- C8: `get_color` is a pure function of the pair
`(prev_cells[y*size+x], cells[y*size+x])`, realising the specification's
table — `(false,true) ↦ BORN` (GREEN), `(true,false) ↦ DIED` (RED),
`(true,true) ↦ ALIVE` (WHITE), `(false,false) ↦ DEAD` (BLACK); being a
function of the grid, it leaves the grid state unchanged. -/
theorem get_color_classifies (g : Grid) (x y : Nat) :
    g.get_color x y =
      colorOfClass (classifySpec (g.prev_cells.getD (y * g.size + x) false)
        (g.cells.getD (y * g.size + x) false)) := by
  unfold Grid.get_color classifySpec colorOfClass
  cases g.prev_cells.getD (y * g.size + x) false <;>
    cases g.cells.getD (y * g.size + x) false <;> rfl

/-- C3: `prev_cells` starts all-false, `step()` sets it to the pre-step
`cells` array, and `toggle`/`set` never modify it (whether they succeed or
hit the bounds panic). -/
theorem prev_cells_discipline :
    (∀ n : Nat, (Grid.new n).prev_cells = List.replicate (n * n) false) ∧
    (∀ g : Grid, g.step.prev_cells = g.cells) ∧
    (∀ (g : Grid) (x y : Nat), ((g.toggle? x y).getD g).prev_cells = g.prev_cells) ∧
    (∀ (g : Grid) (x y : Nat) (v : Bool),
      ((g.set? x y v).getD g).prev_cells = g.prev_cells) := by
  refine ⟨fun n => rfl, fun g => rfl, fun g x y => ?_, fun g x y v => ?_⟩
  · by_cases h : y * g.size + x < g.cells.length <;> simp [Grid.toggle?, h]
  · unfold Grid.set?
    split <;> rfl

/-- C10: the cells array produced by `step()` depends only on the size and
the pre-step cells array, never on `prev_cells`. -/
theorem step_depends_only_on_cells (g₁ g₂ : Grid) (hsize : g₁.size = g₂.size)
    (hcells : g₁.cells = g₂.cells) : g₁.step.cells = g₂.step.cells := by
  cases g₁
  cases g₂
  cases hsize
  cases hcells
  rfl

/-- Witness for C10 at two concrete 2×2 grids with equal cells and
different `prev_cells`. -/
theorem step_depends_only_on_cells_witness :
    gSamePrevA.prev_cells ≠ gSamePrevB.prev_cells ∧
    gSamePrevA.size = gSamePrevB.size ∧
    gSamePrevA.cells = gSamePrevB.cells ∧
    gSamePrevA.step.cells = gSamePrevB.step.cells :=
  ⟨by decide, rfl, rfl, step_depends_only_on_cells gSamePrevA gSamePrevB rfl rfl⟩

/-- C4 counterexample: on a 2×2 grid, `x = 3` is out of range (`3 ≥ size`)
yet `get`, `set` and `toggle` at `(3, 0)` all succeed — the flat index
`0*2+3 = 3` is inside the backing vector, so the access silently lands on
the in-bounds cell `(1,1)` instead of failing. -/
theorem access_error_claim_false :
    (Grid.new 2).size ≤ 3 ∧
    (Grid.new 2).get? 3 0 = some false ∧
    (Grid.new 2).set? 3 0 true =
      some { size := 2, cells := [false, false, false, true]
             prev_cells := [false, false, false, false] } ∧
    (Grid.new 2).toggle? 3 0 =
      some { size := 2, cells := [false, false, false, true]
             prev_cells := [false, false, false, false] } := by
  decide

/-- C4 amended: on a well-formed grid (`cells.length = size*size`), each of
`get`, `set`, `toggle` at `(x,y)` fails if and only if the flat index
`y*size+x` is at least `size*size`; in particular `y ≥ size` always fails,
but an out-of-range `x` with `y*size+x < size*size` silently aliases
another in-bounds cell instead of failing. -/
theorem access_error_iff (g : Grid) (x y : Nat) (v : Bool)
    (hlen : g.cells.length = g.size * g.size) :
    (g.get? x y = none ↔ g.size * g.size ≤ y * g.size + x) ∧
    (g.set? x y v = none ↔ g.size * g.size ≤ y * g.size + x) ∧
    (g.toggle? x y = none ↔ g.size * g.size ≤ y * g.size + x) := by
  refine ⟨?_, ?_, ?_⟩
  · unfold Grid.get?
    rw [List.getElem?_eq_none_iff, hlen]
  · unfold Grid.set?
    rw [hlen]
    split <;> simp <;> omega
  · by_cases h : y * g.size + x < g.cells.length <;>
      simp [Grid.toggle?, h] <;> omega

/-- The nested loops of `neighbors` are the single loop over `nineOffsets`. -/
theorem neighbors_eq_foldl_nine (g : Grid) (x y : Nat) :
    g.neighbors x y = nineOffsets.foldl (fun count d =>
      if d.1 = 0 ∧ d.2 = 0 then count
      else if 0 ≤ (x : Int) + d.1 ∧ 0 ≤ (y : Int) + d.2 ∧
          (x : Int) + d.1 < (g.size : Int) ∧ (y : Int) + d.2 < (g.size : Int) ∧
          g.get ((x : Int) + d.1).toNat ((y : Int) + d.2).toNat = true then
        count + 1
      else count) 0 := rfl

/-- A fold that skips elements satisfying `q` and otherwise counts elements
satisfying `p` computes a `countP`. -/
theorem foldl_skip_count {α : Type} (q p : α → Prop) [DecidablePred q] [DecidablePred p] :
    ∀ (L : List α) (n : Nat),
      L.foldl (fun c a => if q a then c else if p a then c + 1 else c) n =
        n + L.countP (fun a => decide (¬ q a ∧ p a))
  | [], n => by simp
  | a :: L, n => by
    by_cases hq : q a <;> by_cases hp : p a <;>
      (simp [hq, hp, foldl_skip_count q p L, List.countP_cons]; try omega)

/-- Counting over the 9 loop offsets while skipping `(0,0)` is counting
over the 8 Moore offsets. -/
theorem countP_nine_eq_moore (p : Int × Int → Bool) :
    nineOffsets.countP (fun d => decide (¬ (d.1 = 0 ∧ d.2 = 0)) && p d) =
      mooreOffsets.countP p := by
  have hA : List.countP (fun d => decide (¬ (d.1 = 0 ∧ d.2 = 0)) && p d)
      ([(-1,-1),(-1,0),(-1,1),(0,-1)] : List (Int × Int)) =
      List.countP p ([(-1,-1),(-1,0),(-1,1),(0,-1)] : List (Int × Int)) := by
    apply List.countP_congr
    intro a ha
    simp only [List.mem_cons, List.not_mem_nil, or_false] at ha
    rcases ha with h | h | h | h <;> subst h <;> simp
  have hB : List.countP (fun d => decide (¬ (d.1 = 0 ∧ d.2 = 0)) && p d)
      ([(0,1),(1,-1),(1,0),(1,1)] : List (Int × Int)) =
      List.countP p ([(0,1),(1,-1),(1,0),(1,1)] : List (Int × Int)) := by
    apply List.countP_congr
    intro a ha
    simp only [List.mem_cons, List.not_mem_nil, or_false] at ha
    rcases ha with h | h | h | h <;> subst h <;> simp
  have h0 : List.countP (fun d => decide (¬ (d.1 = 0 ∧ d.2 = 0)) && p d)
      ([(0,0)] : List (Int × Int)) = 0 := by
    simp
  show List.countP _ ((([(-1,-1),(-1,0),(-1,1),(0,-1)] : List (Int × Int)) ++ [(0,0)]) ++
    [(0,1),(1,-1),(1,0),(1,1)]) = _
  rw [List.countP_append, List.countP_append, hA, hB, h0, Nat.add_zero]
  show _ = List.countP _ (([(-1,-1),(-1,0),(-1,1),(0,-1)] : List (Int × Int)) ++
    [(0,1),(1,-1),(1,0),(1,1)])
  rw [List.countP_append]

/-- `neighbors` counts live, in-bounds Moore neighbors. -/
theorem neighbors_counts (g : Grid) (x y : Nat) :
    g.neighbors x y = mooreOffsets.countP (fun d =>
      decide (0 ≤ (x : Int) + d.1 ∧ 0 ≤ (y : Int) + d.2 ∧
        (x : Int) + d.1 < (g.size : Int) ∧ (y : Int) + d.2 < (g.size : Int) ∧
        g.get ((x : Int) + d.1).toNat ((y : Int) + d.2).toNat = true)) := by
  rw [neighbors_eq_foldl_nine, foldl_skip_count, Nat.zero_add, ← countP_nine_eq_moore]
  apply List.countP_congr
  intro a _
  simp [Bool.decide_and]

/-- C2: `neighbors(x,y)` counts exactly the live cells among the 8
Moore-neighborhood positions, with positions outside `[0,size)` on either
axis contributing 0 (hard edges, no wraparound); hence the result is at
most 8, and the live corner `(0,0)` of an otherwise-empty grid has 0
neighbors. -/
theorem neighbors_counts_moore :
    (∀ (g : Grid) (x y : Nat),
      g.neighbors x y = mooreOffsets.countP (fun d =>
        decide (0 ≤ (x : Int) + d.1 ∧ 0 ≤ (y : Int) + d.2 ∧
          (x : Int) + d.1 < (g.size : Int) ∧ (y : Int) + d.2 < (g.size : Int) ∧
          g.get ((x : Int) + d.1).toNat ((y : Int) + d.2).toNat = true))) ∧
    (∀ (g : Grid) (x y : Nat), g.neighbors x y ≤ 8) ∧
    (lonelyCorner.get 0 0 = true ∧ lonelyCorner.neighbors 0 0 = 0) := by
  refine ⟨neighbors_counts, fun g x y => ?_, by decide⟩
  rw [neighbors_counts]
  exact le_trans (List.countP_le_length _) (by decide)

/-- In-bounds coordinates give an in-bounds flat index. -/
theorem flat_index_lt {size x y : Nat} (hx : x < size) (hy : y < size) :
    y * size + x < size * size :=
  calc y * size + x < y * size + size := by omega
    _ = (y + 1) * size := by ring
    _ ≤ size * size := Nat.mul_le_mul_right _ (by omega)

/-- Writing back the value already stored at an in-bounds index is a no-op. -/
theorem set_getD_self {α : Type} (l : List α) (i : Nat) (d : α) (h : i < l.length) :
    l.set i (l.getD i d) = l := by
  apply List.ext_getElem (by simp)
  intro n h1 h2
  rcases eq_or_ne i n with hn | hn
  · subst hn
    simp [List.getD_eq_getElem?_getD, List.getElem?_eq_getElem h]
  · rw [List.getElem_set_ne hn]

/-- Reading back an in-bounds write. -/
theorem getD_set_self {α : Type} (l : List α) (i : Nat) (a d : α) (h : i < l.length) :
    (l.set i a).getD i d = a := by
  rw [List.getD_eq_getElem?_getD, List.getElem?_set_self h]
  rfl

/-- C7: on a well-formed grid, an in-bounds `toggle(x,y)` succeeds, leaves
`prev_cells` unchanged, and a second identical `toggle` restores exactly
the original grid. -/
theorem toggle_twice_restores (g : Grid) (x y : Nat) (hx : x < g.size)
    (hy : y < g.size) (hlen : g.cells.length = g.size * g.size) :
    ∃ g', g.toggle? x y = some g' ∧ g'.prev_cells = g.prev_cells ∧
      g'.toggle? x y = some g := by
  have hi : y * g.size + x < g.cells.length := by
    rw [hlen]; exact flat_index_lt hx hy
  refine ⟨⟨g.size, g.cells.set (y * g.size + x)
      (!(g.cells.getD (y * g.size + x) false)), g.prev_cells⟩,
    by simp [Grid.toggle?, hi], rfl, ?_⟩
  have hi2 : y * g.size + x <
      (g.cells.set (y * g.size + x) (!(g.cells.getD (y * g.size + x) false))).length := by
    simpa using hi
  simp only [Grid.toggle?, hi2, if_pos]
  rw [getD_set_self _ _ _ _ hi, Bool.not_not, List.set_set,
    set_getD_self _ _ _ hi]

/-- Witness for C7 at the 1×1 grid and `(x,y) = (0,0)`. -/
theorem toggle_twice_restores_witness :
    0 < (Grid.new 1).size ∧
    (Grid.new 1).cells.length = (Grid.new 1).size * (Grid.new 1).size ∧
    ∃ g', (Grid.new 1).toggle? 0 0 = some g' ∧
      g'.prev_cells = (Grid.new 1).prev_cells ∧
      g'.toggle? 0 0 = some (Grid.new 1) :=
  ⟨by decide, by decide,
    toggle_twice_restores (Grid.new 1) 0 0 (by decide) (by decide) (by decide)⟩

/-- Witness for C4's amended theorem at the 2×2 grid and `(x,y) = (3,0)`. -/
theorem access_error_iff_witness :
    (Grid.new 2).cells.length = (Grid.new 2).size * (Grid.new 2).size ∧
    (((Grid.new 2).get? 3 0 = none) ↔
      (Grid.new 2).size * (Grid.new 2).size ≤ 0 * (Grid.new 2).size + 3) ∧
    (((Grid.new 2).set? 3 0 true = none) ↔
      (Grid.new 2).size * (Grid.new 2).size ≤ 0 * (Grid.new 2).size + 3) ∧
    (((Grid.new 2).toggle? 3 0 = none) ↔
      (Grid.new 2).size * (Grid.new 2).size ≤ 0 * (Grid.new 2).size + 3) :=
  ⟨rfl, access_error_iff (Grid.new 2) 3 0 true rfl⟩

/-- The flat index `y*size + x` determines in-bounds `x` and `y`. -/
theorem flat_index_inj {s x x' y y' : Nat} (hx : x < s) (hx' : x' < s)
    (h : y * s + x = y' * s + x') : x = x' ∧ y = y' := by
  have h' : x + y * s = x' + y' * s := by
    rw [Nat.add_comm x (y * s), Nat.add_comm x' (y' * s)]; exact h
  have e1 : (x + y * s) % s = x := by
    rw [Nat.add_mul_mod_self_right]; exact Nat.mod_eq_of_lt hx
  have e2 : (x' + y' * s) % s = x' := by
    rw [Nat.add_mul_mod_self_right]; exact Nat.mod_eq_of_lt hx'
  have hxx : x = x' := by rw [← e1, ← e2, h']
  subst hxx
  refine ⟨rfl, ?_⟩
  have hys : y * s = y' * s := by omega
  exact Nat.eq_of_mul_eq_mul_right (by omega) hys

/-- `pairList` holds exactly the in-bounds coordinate pairs. -/
theorem mem_pairList {size : Nat} {p : Nat × Nat} :
    p ∈ pairList size ↔ p.1 < size ∧ p.2 < size := by
  rcases p with ⟨x, y⟩
  simp [pairList]

/-- Folding over the flattened pair list is the nested loop. -/
theorem foldl_pairs {γ : Type} (size : Nat) (f : γ → Nat → Nat → γ) (init : γ) :
    (pairList size).foldl (fun a p => f a p.1 p.2) init =
      (List.range size).foldl (fun acc x =>
        (List.range size).foldl (fun acc y => f acc x y) acc) init := by
  rw [pairList, List.flatMap_def, List.foldl_flatten, List.foldl_map]
  simp only [List.foldl_map]

/-- A fold of writes that never touches index `j` leaves the value at `j`
unchanged. -/
theorem foldl_set_getD_not_mem {β : Type} (idx : β → Nat) (w : β → Bool) (j : Nat) :
    ∀ (L : List β) (acc : List Bool), (∀ p ∈ L, idx p ≠ j) →
      (L.foldl (fun a p => a.set (idx p) (w p)) acc).getD j false = acc.getD j false
  | [], _, _ => rfl
  | p :: L, acc, h => by
    rw [List.foldl_cons,
      foldl_set_getD_not_mem idx w j L _ (fun q hq => h q (List.mem_cons_of_mem _ hq)),
      List.getD_eq_getElem?_getD, List.getElem?_set_ne (h p (List.mem_cons_self _ _)),
      ← List.getD_eq_getElem?_getD]

/-- After a fold of writes, the value at the index of a list element `t` is
the value written for `t` (elements colliding on the index must agree). -/
theorem foldl_set_getD_mem {β : Type} (idx : β → Nat) (w : β → Bool) :
    ∀ (L : List β) (acc : List Bool) (t : β), t ∈ L →
      (∀ p ∈ L, idx p = idx t → w p = w t) →
      (∀ p ∈ L, idx p < acc.length) →
      (L.foldl (fun a p => a.set (idx p) (w p)) acc).getD (idx t) false = w t
  | [], _, t, ht, _, _ => absurd ht (List.not_mem_nil t)
  | p :: L, acc, t, ht, hagree, hlt => by
    rw [List.foldl_cons]
    by_cases hL : ∃ q ∈ L, idx q = idx t
    · obtain ⟨q, hq, hqt⟩ := hL
      have hrec := foldl_set_getD_mem idx w L (acc.set (idx p) (w p)) q hq
        (fun r hr hrq => by
          rw [hagree r (List.mem_cons_of_mem _ hr) (hrq.trans hqt),
            hagree q (List.mem_cons_of_mem _ hq) hqt])
        (fun r hr => by
          simpa using hlt r (List.mem_cons_of_mem _ hr))
      rw [hqt] at hrec
      rw [hrec]
      exact hagree q (List.mem_cons_of_mem _ hq) hqt
    · push_neg at hL
      have htp : t = p := by
        rcases List.mem_cons.mp ht with h | h
        · exact h
        · exact absurd rfl (hL t h)
      subst htp
      rw [foldl_set_getD_not_mem idx w (idx t) L _ hL]
      exact getD_set_self _ _ _ _ (hlt t (List.mem_cons_self _ _))

/-- The nested write loop of `step` is the fold over `pairList`. -/
theorem step_cells_eq (g : Grid) :
    g.step.cells = (pairList g.size).foldl
      (fun a p => a.set (p.2 * g.size + p.1)
        (Grid.lifeRule (g.get p.1 p.2) (g.neighbors p.1 p.2))) g.cells := by
  have h := foldl_pairs g.size (fun a x y => a.set (y * g.size + x)
    (Grid.lifeRule (g.get x y) (g.neighbors x y))) g.cells
  exact h.symm

/-- The match arm of `step` as a proposition. -/
theorem lifeRule_eq_true (a : Bool) (n : Nat) :
    (Grid.lifeRule a n = true) ↔ ((a = true ∧ n = 2) ∨ n = 3) := by
  cases a <;> rcases n with _ | _ | _ | _ | n <;> simp [Grid.lifeRule]

/-- C1: after one `step()`, the cell at in-bounds `(x,y)` is live iff,
evaluated on the pre-step snapshot, the cell was alive with exactly 2 live
neighbors, or had exactly 3 live neighbors; otherwise it is dead.  The
right-hand side reads only the pre-step grid `g`, so no value read by the
computation comes from a partially updated grid. -/
theorem step_applies_rule (g : Grid) (x y : Nat) (hx : x < g.size) (hy : y < g.size)
    (hlen : g.cells.length = g.size * g.size) :
    (g.step.get x y = true ↔
      ((g.get x y = true ∧ g.neighbors x y = 2) ∨ g.neighbors x y = 3)) := by
  have hmain : g.step.cells.getD (y * g.size + x) false =
      Grid.lifeRule (g.get x y) (g.neighbors x y) := by
    rw [step_cells_eq]
    exact foldl_set_getD_mem (fun p => p.2 * g.size + p.1)
      (fun p => Grid.lifeRule (g.get p.1 p.2) (g.neighbors p.1 p.2))
      (pairList g.size) g.cells (x, y) (mem_pairList.mpr ⟨hx, hy⟩)
      (fun p hp hidx => by
        obtain ⟨h1, h2⟩ := mem_pairList.mp hp
        obtain ⟨e1, e2⟩ := flat_index_inj h1 hx hidx
        have e2' : p.2 = y := e2
        show Grid.lifeRule (g.get p.1 p.2) (g.neighbors p.1 p.2) =
          Grid.lifeRule (g.get x y) (g.neighbors x y)
        rw [e1, e2'])
      (fun p hp => by
        rw [hlen]
        exact flat_index_lt (mem_pairList.mp hp).1 (mem_pairList.mp hp).2)
  have hget : g.step.get x y = Grid.lifeRule (g.get x y) (g.neighbors x y) := hmain
  rw [hget, lifeRule_eq_true]

/-- Witness for C1 at the blinker grid and cell `(2,2)`. -/
theorem step_applies_rule_witness :
    2 < blinkerRow.size ∧
    blinkerRow.cells.length = blinkerRow.size * blinkerRow.size ∧
    (blinkerRow.step.get 2 2 = true ↔
      ((blinkerRow.get 2 2 = true ∧ blinkerRow.neighbors 2 2 = 2) ∨
        blinkerRow.neighbors 2 2 = 3)) :=
  ⟨by decide, by decide,
    step_applies_rule blinkerRow 2 2 (by decide) (by decide) (by decide)⟩

/-- Membership in the 25 click offsets is the `[-2,2]` square condition. -/
theorem mem_clickOffsets {p : Int × Int} :
    p ∈ clickOffsets ↔ (-2 ≤ p.1 ∧ p.1 ≤ 2 ∧ -2 ≤ p.2 ∧ p.2 ≤ 2) := by
  rcases p with ⟨a, b⟩
  constructor
  · intro h
    rcases List.mem_flatMap.mp h with ⟨dx, hdx, hmem⟩
    rcases List.mem_map.mp hmem with ⟨dy, hdy, hpe⟩
    cases hpe
    simp only [List.mem_cons, List.not_mem_nil, or_false] at hdx hdy
    refine ⟨?_, ?_, ?_, ?_⟩ <;> rcases hdx with h | h | h | h | h <;>
      rcases hdy with h' | h' | h' | h' | h' <;> subst h <;> subst h' <;> decide
  · intro ⟨h1, h2, h3, h4⟩
    have ha : a = -2 ∨ a = -1 ∨ a = 0 ∨ a = 1 ∨ a = 2 := by omega
    have hb : b = -2 ∨ b = -1 ∨ b = 0 ∨ b = 1 ∨ b = 2 := by omega
    rcases ha with h | h | h | h | h <;> subst h <;>
      rcases hb with h' | h' | h' | h' | h' <;> subst h' <;> decide

/-- The toggle loop of `handle_clicks`, over any duplicate-free offset
list on a well-formed grid: it never fails, preserves `size`,
`prev_cells` and the cell count, and flips exactly the in-bounds cells
whose offset from the center is in the list. -/
theorem click_fold_spec (cx cy : Int) :
    ∀ (L : List (Int × Int)), L.Nodup →
    ∀ g : Grid, g.cells.length = g.size * g.size →
      ∃ g' : Grid,
        (L.foldlM (fun gr d =>
          let nx := cx + d.1
          let ny := cy + d.2
          if 0 ≤ nx ∧ 0 ≤ ny ∧ nx < (gr.size : Int) ∧ ny < (gr.size : Int) then
            gr.toggle? nx.toNat ny.toNat
          else
            pure gr) g) = some g' ∧
        g'.size = g.size ∧ g'.prev_cells = g.prev_cells ∧
        g'.cells.length = g.cells.length ∧
        ∀ x y : Nat, x < g.size → y < g.size →
          g'.get x y =
            (if ((x : Int) - cx, (y : Int) - cy) ∈ L then !(g.get x y) else g.get x y)
  | [], _, g, _ => by
    refine ⟨g, rfl, rfl, rfl, rfl, fun x y _ _ => by simp⟩
  | d :: L, hnd, g, hlen => by
    have hndL : L.Nodup := hnd.of_cons
    have hdL : d ∉ L := (List.nodup_cons.mp hnd).1
    by_cases hin : 0 ≤ cx + d.1 ∧ 0 ≤ cy + d.2 ∧
        cx + d.1 < (g.size : Int) ∧ cy + d.2 < (g.size : Int)
    · -- the head offset is in bounds: it really toggles
      have hnx : (cx + d.1).toNat < g.size := by omega
      have hny : (cy + d.2).toNat < g.size := by omega
      have hidx : (cy + d.2).toNat * g.size + (cx + d.1).toNat < g.cells.length := by
        rw [hlen]; exact flat_index_lt hnx hny
      refine Exists.imp ?_ (click_fold_spec cx cy L hndL
        ⟨g.size, g.cells.set ((cy + d.2).toNat * g.size + (cx + d.1).toNat)
          (!(g.cells.getD ((cy + d.2).toNat * g.size + (cx + d.1).toNat) false)),
          g.prev_cells⟩
        (by simpa using hlen))
      rintro g' ⟨hfold, hsz, hprev, hlength, hpt⟩
      have hstep : Grid.toggle? g ((cx + d.1).toNat) ((cy + d.2).toNat) =
          some ⟨g.size, g.cells.set ((cy + d.2).toNat * g.size + (cx + d.1).toNat)
            (!(g.cells.getD ((cy + d.2).toNat * g.size + (cx + d.1).toNat) false)),
            g.prev_cells⟩ := by
        simp [Grid.toggle?, hidx]
      refine ⟨?_, by simpa using hsz, hprev, by simpa using hlength, ?_⟩
      · rw [List.foldlM_cons]
        show (if 0 ≤ cx + d.1 ∧ 0 ≤ cy + d.2 ∧
            cx + d.1 < (g.size : Int) ∧ cy + d.2 < (g.size : Int) then
          g.toggle? (cx + d.1).toNat (cy + d.2).toNat else pure g) >>= _ = some g'
        rw [if_pos hin, hstep]
        simpa using hfold
      · intro x y hx hy
        have hpt' := hpt x y hx hy
        by_cases hd : ((x : Int) - cx, (y : Int) - cy) = d
        · -- the head toggles exactly this cell
          have hx' : (cx + d.1).toNat = x := by rcases hd with rfl; omega
          have hy' : (cy + d.2).toNat = y := by rcases hd with rfl; omega
          have hmemL : ((x : Int) - cx, (y : Int) - cy) ∉ L := hd ▸ hdL
          have hg1get : (⟨g.size,
              g.cells.set ((cy + d.2).toNat * g.size + (cx + d.1).toNat)
                (!(g.cells.getD ((cy + d.2).toNat * g.size + (cx + d.1).toNat) false)),
              g.prev_cells⟩ : Grid).get x y = !(g.get x y) := by
            show (g.cells.set _ _).getD (y * g.size + x) false = _
            rw [← hx', ← hy']
            exact getD_set_self _ _ _ _ hidx
          rw [hpt', if_neg hmemL, hg1get, if_pos (List.mem_cons.mpr (Or.inl hd))]
        · -- the head toggles a different cell
          have hne : (cy + d.2).toNat * g.size + (cx + d.1).toNat ≠ y * g.size + x := by
            intro he
            obtain ⟨e1, e2⟩ := flat_index_inj hnx hx he
            apply hd
            rcases d with ⟨d1, d2⟩
            simp only [Prod.mk.injEq]
            constructor <;> simp only at e1 e2 hin ⊢ <;> omega
          have hg1get : (⟨g.size,
              g.cells.set ((cy + d.2).toNat * g.size + (cx + d.1).toNat)
                (!(g.cells.getD ((cy + d.2).toNat * g.size + (cx + d.1).toNat) false)),
              g.prev_cells⟩ : Grid).get x y = g.get x y := by
            show (g.cells.set _ _).getD (y * g.size + x) false =
              g.cells.getD (y * g.size + x) false
            rw [List.getD_eq_getElem?_getD, List.getElem?_set_ne hne,
              ← List.getD_eq_getElem?_getD]
          rw [hpt', hg1get]
          have hmem : (((x : Int) - cx, (y : Int) - cy) ∈ d :: L) ↔
              (((x : Int) - cx, (y : Int) - cy) ∈ L) := by
            simp [List.mem_cons, hd]
          simp only [hmem]
    · -- the head offset is out of bounds: it is skipped
      refine Exists.imp ?_ (click_fold_spec cx cy L hndL g hlen)
      rintro g' ⟨hfold, hsz, hprev, hlength, hpt⟩
      refine ⟨?_, hsz, hprev, hlength, ?_⟩
      · rw [List.foldlM_cons]
        show (if 0 ≤ cx + d.1 ∧ 0 ≤ cy + d.2 ∧
            cx + d.1 < (g.size : Int) ∧ cy + d.2 < (g.size : Int) then
          g.toggle? (cx + d.1).toNat (cy + d.2).toNat else pure g) >>= _ = some g'
        rw [if_neg hin]
        simpa using hfold
      · intro x y hx hy
        have hd : ((x : Int) - cx, (y : Int) - cy) ≠ d := by
          intro he
          apply hin
          rcases he with rfl
          refine ⟨by omega, by omega, by omega, by omega⟩
        rw [hpt x y hx hy]
        have hmem : (((x : Int) - cx, (y : Int) - cy) ∈ d :: L) ↔
            (((x : Int) - cx, (y : Int) - cy) ∈ L) := by
          simp [List.mem_cons, hd]
        simp only [hmem]

/-- C6: on a 50×50 well-formed grid with an in-bounds center `(cx,cy)`,
`handle_clicks` raises no error and flips exactly the in-bounds cells of
the square `[cx-2,cx+2] × [cy-2,cy+2]`, each exactly once, leaving
`prev_cells` and the grid size unchanged; an out-of-bounds offset of the
square is silently skipped. -/
theorem handle_click_toggles_square (g : Grid) (cx cy : Int)
    (hsize : g.size = 50) (hlen : g.cells.length = g.size * g.size)
    (hcx : 0 ≤ cx ∧ cx < 50) (hcy : 0 ≤ cy ∧ cy < 50) :
    ∃ g', handle_click g cx cy = some g' ∧ g'.size = g.size ∧
      g'.prev_cells = g.prev_cells ∧
      ∀ x y : Nat, x < 50 → y < 50 →
        g'.get x y = (if cx - 2 ≤ (x : Int) ∧ (x : Int) ≤ cx + 2 ∧
            cy - 2 ≤ (y : Int) ∧ (y : Int) ≤ cy + 2
          then !(g.get x y) else g.get x y) := by
  have hnd : clickOffsets.Nodup := by decide
  obtain ⟨g', hfold, hsz, hprev, hlength, hpt⟩ :=
    click_fold_spec cx cy clickOffsets hnd g hlen
  refine ⟨g', ?_, hsz, hprev, ?_⟩
  · unfold handle_click
    rw [if_pos ⟨hcx.1, hcy.1, by rw [hsize]; exact_mod_cast hcx.2,
      by rw [hsize]; exact_mod_cast hcy.2⟩]
    exact hfold
  · intro x y hx hy
    have hpt' := hpt x y (by rw [hsize]; exact hx) (by rw [hsize]; exact hy)
    rw [hpt']
    have hcond : (((x : Int) - cx, (y : Int) - cy) ∈ clickOffsets) ↔
        (cx - 2 ≤ (x : Int) ∧ (x : Int) ≤ cx + 2 ∧
          cy - 2 ≤ (y : Int) ∧ (y : Int) ≤ cy + 2) := by
      rw [mem_clickOffsets]
      constructor <;> intro h <;> exact ⟨by omega, by omega, by omega, by omega⟩
    simp only [hcond]

/-- A fresh grid is well-formed. -/
theorem new_cells_length (n : Nat) :
    (Grid.new n).cells.length = (Grid.new n).size * (Grid.new n).size := by
  show (List.replicate (n * n) false).length = n * n
  simp

/-- Witness for C6: clicking the corner `(0,0)` of a fresh 50×50 grid
flips exactly the 9 cells `(0..2, 0..2)`. -/
theorem handle_click_witness :
    (Grid.new 50).size = 50 ∧
    (Grid.new 50).cells.length = (Grid.new 50).size * (Grid.new 50).size ∧
    ((0 : Int) ≤ 0 ∧ (0 : Int) < 50) ∧
    (∃ g', handle_click (Grid.new 50) 0 0 = some g' ∧
      g'.size = (Grid.new 50).size ∧
      g'.prev_cells = (Grid.new 50).prev_cells ∧
      ∀ x y : Nat, x < 50 → y < 50 →
        g'.get x y = (if (0 : Int) - 2 ≤ (x : Int) ∧ (x : Int) ≤ (0 : Int) + 2 ∧
            (0 : Int) - 2 ≤ (y : Int) ∧ (y : Int) ≤ (0 : Int) + 2
          then !((Grid.new 50).get x y) else (Grid.new 50).get x y)) :=
  ⟨rfl, new_cells_length 50, ⟨by decide, by decide⟩,
    handle_click_toggles_square (Grid.new 50) 0 0 rfl (new_cells_length 50)
      ⟨by decide, by decide⟩ ⟨by decide, by decide⟩⟩
